import Mathlib

/-!
Verification development for the sales analytics pipeline
(src/utils/data_processor.py, src/utils/api_handler.py,
src/utils/report_generator.py).

Modelling conventions:
* Python floats are modelled as exact rationals.
* Python strings are modelled as Lean strings; the string operations the
  code uses (strip, split, lower, replace) are re-implemented over the
  underlying character lists, mirroring Python semantics on the ASCII
  inputs this pipeline handles.
* Python dicts (which preserve insertion order) are modelled as
  association lists with an update-or-append operation.
* Python sorted and list.sort are stable; they are modelled by a stable
  insertion sort parameterised by a boolean comparison.
* Python max with a key returns the first element attaining the maximal
  key; it is modelled by a fold keeping the current best and replacing it
  only on a strictly larger key.
-/

namespace SalesAnalytics

/-! ## Python string primitives -/

/-- Characters Python str.strip removes (ASCII whitespace). -/
def pyWhitespace (c : Char) : Bool :=
  c == ' ' || c == '\t' || c == '\n' || c == '\r' || c == '\x0b' || c == '\x0c'

/-- Remove leading and trailing whitespace from a character list. -/
def stripData (l : List Char) : List Char :=
  ((l.dropWhile pyWhitespace).reverse.dropWhile pyWhitespace).reverse

/-- Python str.strip(). -/
def pyStrip (s : String) : String := ⟨stripData s.data⟩

/-- Split a character list at every character satisfying p, like Python
str.split with a one-character separator (p matching just that one). -/
def splitPAux (p : Char → Bool) (acc : List Char) : List Char → List (List Char)
  | [] => [acc.reverse]
  | c :: cs => if p c then acc.reverse :: splitPAux p [] cs else splitPAux p (c :: acc) cs

/-- Python s.split(sep) for a single-character separator sep. -/
def pySplitChar (sep : Char) (s : String) : List String :=
  (splitPAux (fun c => c == sep) [] s.data).map (fun l => ⟨l⟩)

/-- Python s.replace(",", "") for a single character: drop every occurrence. -/
def pyRemoveChar (sep : Char) (s : String) : String :=
  ⟨s.data.filter (fun c => !(c == sep))⟩

/-- ASCII lower-casing of one character (Python str.lower on the ASCII
region labels this pipeline processes). -/
def pyLowerChar (c : Char) : Char :=
  if 65 ≤ c.toNat ∧ c.toNat ≤ 90 then Char.ofNat (c.toNat + 32) else c

/-- Python str.lower(). -/
def pyLower (s : String) : String := ⟨s.data.map pyLowerChar⟩

/-- ASCII upper-casing of one character. -/
def pyUpperChar (c : Char) : Char :=
  if 97 ≤ c.toNat ∧ c.toNat ≤ 122 then Char.ofNat (c.toNat - 32) else c

/-- Python s.startswith(c) for a one-character needle: the first character
equals c (false on the empty string). -/
def pyStartsWith (s : String) (c : Char) : Bool :=
  match s.data with
  | [] => false
  | a :: _ => a == c

/-- Python s[:1].upper() == "P": the first character upper-cases to c. -/
def pyFirstUpperIs (s : String) (c : Char) : Bool :=
  match s.data with
  | [] => false
  | a :: _ => pyUpperChar a == c

/-- Drop the first character, Python s[1:]. -/
def pyDropFirst (s : String) : String :=
  match s.data with
  | [] => ⟨[]⟩
  | _ :: rest => ⟨rest⟩

/-- Numeric value of a digit string. -/
def digitsToNat (l : List Char) : Nat :=
  l.foldl (fun n c => 10 * n + (c.toNat - 48)) 0

/-- Python int(s) on a decimal string: strip whitespace, optional sign,
then a non-empty run of digits.  (Python additionally accepts underscore
digit separators and non-ASCII digits; those never occur in this
pipeline's inputs and are not modelled.) -/
def pyParseInt (s : String) : Option Int :=
  let t := stripData s.data
  let sg : Int := match t with
    | '-' :: _ => -1
    | _ => 1
  let ds : List Char := match t with
    | '-' :: rest => rest
    | '+' :: rest => rest
    | _ => t
  if !ds.isEmpty && ds.all Char.isDigit then some (sg * (digitsToNat ds : Int)) else none

/-- 10 ^ e for an integer exponent, as a rational. -/
def pow10 (e : Int) : ℚ :=
  if 0 ≤ e then (10 : ℚ) ^ e.toNat else ((10 : ℚ) ^ (-e).toNat)⁻¹

/-- Mantissa of a Python float literal: digits, digits.digits, .digits or
digits. (at least one digit overall). -/
def pyMantissa (l : List Char) : Option ℚ :=
  match splitPAux (fun c => c == '.') [] l with
  | [ip] => if !ip.isEmpty && ip.all Char.isDigit then some (digitsToNat ip : ℚ) else none
  | [ip, fp] =>
      if (ip.all Char.isDigit && fp.all Char.isDigit) && (!ip.isEmpty || !fp.isEmpty) then
        some ((digitsToNat ip : ℚ) + (digitsToNat fp : ℚ) / (10 : ℚ) ^ fp.length)
      else none
  | _ => none

/-- Exponent part of a Python float literal: optional sign, digits. -/
def pyExponent (l : List Char) : Option Int :=
  let sg : Int := match l with
    | '-' :: _ => -1
    | _ => 1
  let ds : List Char := match l with
    | '-' :: rest => rest
    | '+' :: rest => rest
    | _ => l
  if !ds.isEmpty && ds.all Char.isDigit then some (sg * (digitsToNat ds : Int)) else none

/-- Python float(s) on a finite decimal literal: strip whitespace,
optional sign, mantissa, optional e/E exponent.  (The special values
inf/nan and underscore separators never occur in this pipeline's inputs
and are not modelled.) -/
def pyParseFloat (s : String) : Option ℚ :=
  let t := stripData s.data
  let sg : ℚ := match t with
    | '-' :: _ => -1
    | _ => 1
  let r : List Char := match t with
    | '-' :: rest => rest
    | '+' :: rest => rest
    | _ => t
  match splitPAux (fun c => c == 'e' || c == 'E') [] r with
  | [mant] => (pyMantissa mant).map (fun m => sg * m)
  | [mant, ex] =>
      match pyMantissa mant, pyExponent ex with
      | some m, some e => some (sg * m * pow10 e)
      | _, _ => none
  | _ => none

/-! ## Python dict / sort / max / round primitives -/

/-- Python dict accumulation step: if the key is present, update its value
in place (keeping its position); otherwise append the key at the end with
the update applied to the given initial value.  This models the idiom
if k not in d: d[k] = init followed by an in-place update of d[k]. -/
def updOrInsert {K V : Type} [DecidableEq K] (k : K) (f : V → V) (v₀ : V) :
    List (K × V) → List (K × V)
  | [] => [(k, f v₀)]
  | e :: rest => if e.1 = k then (e.1, f e.2) :: rest else e :: updOrInsert k f v₀ rest

/-- Insert an element into a list before the first element b with le a b,
the insertion step of a stable insertion sort. -/
def insertSorted {α : Type} (le : α → α → Bool) (a : α) : List α → List α
  | [] => [a]
  | b :: l => if le a b then a :: b :: l else b :: insertSorted le a l

/-- Stable sort by a boolean comparison; models Python sorted / list.sort
(stable; for a descending sort by key use le a b := key b ≤ key a). -/
def pySort {α : Type} (le : α → α → Bool) : List α → List α
  | [] => []
  | x :: xs => insertSorted le x (pySort le xs)

/-- Python max(l, key) starting from a first element: replace the current
best only on a strictly larger key, so the first maximum wins. -/
def pyMaxBy {α : Type} (key : α → ℚ) (x : α) (xs : List α) : α :=
  xs.foldl (fun best y => if key best < key y then y else best) x

/-- Python round(x, 2): round to 2 decimal places, ties to even. -/
def pyRound2 (q : ℚ) : ℚ :=
  let y := q * 100
  let n : Int := ⌊y⌋
  let r : Int :=
    if y - n < 1/2 then n
    else if 1/2 < y - n then n + 1
    else if n % 2 = 0 then n else n + 1
  (r : ℚ) / 100

/-! ## Data model -/

/-- A parsed transaction record, the dictionary shape produced by
parse_transactions (all eight keys present, Quantity an int, UnitPrice a
float, the remaining fields strings). -/
structure Transaction where
  transactionID : String
  date : String
  productID : String
  productName : String
  quantity : Int
  unitPrice : ℚ
  customerID : String
  region : String
deriving DecidableEq, Repr

/-- The per-product-info entry stored by create_product_mapping; each
field is p.get(...) of the fetched product dict, hence optional. -/
structure ProductInfo where
  title : Option String
  category : Option String
  brand : Option String
  rating : Option ℚ
deriving DecidableEq, Repr

/-- A transaction dict after enrich_sales_data added the four API fields. -/
structure EnrichedTransaction where
  tx : Transaction
  apiCategory : Option String
  apiBrand : Option String
  apiRating : Option ℚ
  apiMatch : Bool
deriving DecidableEq, Repr

/-- The filter_summary dict returned by validate_and_filter. -/
structure FilterSummary where
  totalInput : Nat
  invalid : Nat
  filteredByRegion : Nat
  filteredByAmount : Nat
  finalCount : Nat
deriving DecidableEq, Repr

/-! ## src/utils/data_processor.py -/

/-- One iteration of the parse_transactions loop (lines 21-64): skip empty
lines, strip, split on the pipe, require exactly 8 fields, strip each
field, remove commas from the product name and the numeric fields,
convert quantity to int and unit price to float, dropping the line if
either conversion fails. -/
def parseLine (line : String) : Option Transaction :=
  if line = "" then none
  else
    let row := pyStrip line
    if row = "" then none
    else
      let parts := pySplitChar '|' row
      if parts.length ≠ 8 then none
      else
        let transaction_id := pyStrip (parts.getD 0 "")
        let date := pyStrip (parts.getD 1 "")
        let product_id := pyStrip (parts.getD 2 "")
        let product_name := pyRemoveChar ',' (pyStrip (parts.getD 3 ""))
        let qty_str := pyRemoveChar ',' (pyStrip (parts.getD 4 ""))
        let price_str := pyRemoveChar ',' (pyStrip (parts.getD 5 ""))
        let customer_id := pyStrip (parts.getD 6 "")
        let region := pyStrip (parts.getD 7 "")
        match pyParseInt qty_str, pyParseFloat price_str with
        | some quantity, some unit_price =>
            some ⟨transaction_id, date, product_id, product_name,
                  quantity, unit_price, customer_id, region⟩
        | _, _ => none

/-- parse_transactions (data_processor.py lines 6-66): the order-preserving
collection of the lines parseLine keeps. -/
def parse_transactions (raw_lines : List String) : List Transaction :=
  raw_lines.filterMap parseLine

/-- The Stage-A validation of one record inside validate_and_filter
(data_processor.py lines 98-142).  On the parsed-record shape the
required-field check reduces to the blank test on the six string-typed
fields (the numeric fields are not str instances), and the int/float
coercions of Quantity/UnitPrice are the identity, so the kept record
tx_clean equals the input record. -/
def validateRecord (t : Transaction) : Option Transaction :=
  if pyStrip t.transactionID = "" ∨ pyStrip t.date = "" ∨
      pyStrip t.productID = "" ∨ pyStrip t.productName = "" ∨
      pyStrip t.customerID = "" ∨ pyStrip t.region = "" then none
  else if t.quantity ≤ 0 ∨ t.unitPrice ≤ 0 then none
  else if ¬ pyStartsWith (pyStrip t.transactionID) 'T' then none
  else if ¬ pyStartsWith (pyStrip t.productID) 'P' then none
  else if ¬ pyStartsWith (pyStrip t.customerID) 'C' then none
  else some { t with quantity := t.quantity, unitPrice := t.unitPrice }

/-- One iteration of the Stage-A loop of validate_and_filter: append the
kept record or bump the invalid count. -/
def stageAStep (acc : List Transaction × Nat) (t : Transaction) :
    List Transaction × Nat :=
  match validateRecord t with
  | some tc => (acc.1 ++ [tc], acc.2)
  | none => (acc.1, acc.2 + 1)

/-- The Stage-A loop of validate_and_filter: accumulate the kept records
in order and count the rejected ones. -/
def stageA (txs : List Transaction) : List Transaction × Nat :=
  txs.foldl stageAStep ([], 0)

/-- The in_range predicate of the amount filter (data_processor.py lines
159-165). -/
def inAmountRange (minAmount maxAmount : Option ℚ) (t : Transaction) : Bool :=
  let amt := (t.quantity : ℚ) * t.unitPrice
  !(match minAmount with | some m => decide (amt < m) | none => false) &&
  !(match maxAmount with | some m => decide (m < amt) | none => false)

/-- validate_and_filter (data_processor.py lines 69-178): Stage-A
validation, then the optional region filter (case-insensitive exact match
on the trimmed region, applied only for a non-blank region argument),
then the optional amount-range filter, returning the surviving records,
the invalid count and the summary dict. -/
def validate_and_filter (txs : List Transaction) (region : Option String)
    (minAmount maxAmount : Option ℚ) :
    List Transaction × Nat × FilterSummary :=
  let va := stageA txs
  let afterRegion :=
    match region with
    | some r =>
        if pyStrip r ≠ "" then
          let target := pyLower (pyStrip r)
          let kept := va.1.filter (fun t : Transaction => pyLower (pyStrip t.region) == target)
          (kept, va.1.length - kept.length)
        else (va.1, 0)
    | none => (va.1, 0)
  let afterAmount :=
    if minAmount.isSome || maxAmount.isSome then
      let kept := afterRegion.1.filter (inAmountRange minAmount maxAmount)
      (kept, afterRegion.1.length - kept.length)
    else (afterRegion.1, 0)
  (afterAmount.1, va.2,
   ⟨txs.length, va.2, afterRegion.2, afterAmount.2, afterAmount.1.length⟩)

/-- calculate_total_revenue (data_processor.py lines 180-196): the sum of
Quantity * UnitPrice.  The defensive int/float coercions in the source
are the identity on the typed record and never fail, so no record is
skipped. -/
def calculate_total_revenue (txs : List Transaction) : ℚ :=
  txs.foldl (fun total t => total + (t.quantity : ℚ) * t.unitPrice) 0

/-- The per-region accumulator dict value of region_wise_sales and of
_region_table in the report generator (their accumulation loops are
identical up to field names). -/
structure RegionAcc where
  sales : ℚ
  count : Nat
deriving DecidableEq, Repr

/-- One iteration of the region accumulation loop shared by
region_wise_sales (data_processor.py lines 207-221) and _region_table
(report_generator.py lines 45-54): add the amount to the region's
running total, bump its count, and add the amount to the grand total. -/
def regionStep (acc : List (String × RegionAcc) × ℚ) (t : Transaction) :
    List (String × RegionAcc) × ℚ :=
  let amount := (t.quantity : ℚ) * t.unitPrice
  (updOrInsert t.region (fun s => ⟨s.sales + amount, s.count + 1⟩) ⟨0, 0⟩ acc.1,
   acc.2 + amount)

/-- The region accumulation fold shared by region_wise_sales and
_region_table, returning the insertion-ordered per-region stats and the
grand total. -/
def regionAccum (txs : List Transaction) : List (String × RegionAcc) × ℚ :=
  txs.foldl regionStep ([], 0)

/-- One entry of region_wise_sales output. -/
structure RegionStat where
  totalSales : ℚ
  txCount : Nat
  percentage : ℚ
deriving DecidableEq, Repr

/-- region_wise_sales (data_processor.py lines 198-235): accumulate per
region, attach the 2-decimal rounded percentage of the grand total (0.0
when the grand total is not positive), and sort by total sales
descending (stable, first-seen order on ties). -/
def region_wise_sales (txs : List Transaction) : List (String × RegionStat) :=
  let ra := regionAccum txs
  let withPct := ra.1.map (fun e =>
    (e.1, RegionStat.mk e.2.sales e.2.count
      (if 0 < ra.2 then pyRound2 (e.2.sales / ra.2 * 100) else 0)))
  pySort (fun a b => decide (b.2.totalSales ≤ a.2.totalSales)) withPct

/-- The per-product accumulator dict value shared by top_selling_products
(data_processor.py lines 246-261), low_performing_products (lines
410-425) and _top_products / _low_performers in the report generator;
all four accumulation loops are identical. -/
structure ProductAcc where
  qty : Int
  rev : ℚ
deriving DecidableEq, Repr

/-- One iteration of the shared per-product-name accumulation loop. -/
def productStep (acc : List (String × ProductAcc)) (t : Transaction) :
    List (String × ProductAcc) :=
  let revenue := (t.quantity : ℚ) * t.unitPrice
  updOrInsert t.productName (fun s => ⟨s.qty + t.quantity, s.rev + revenue⟩)
    ⟨0, 0⟩ acc

/-- The shared per-product-name accumulation fold. -/
def productStats (txs : List Transaction) : List (String × ProductAcc) :=
  txs.foldl productStep []

/-- top_selling_products (data_processor.py lines 238-273): sort the
per-product stats by total quantity descending (stable) and return the
first n as (name, quantity, revenue) triples. -/
def top_selling_products (txs : List Transaction) (n : Nat) :
    List (String × Int × ℚ) :=
  let sortedProducts := pySort (fun a b => decide (b.2.qty ≤ a.2.qty)) (productStats txs)
  (sortedProducts.take n).map (fun e => (e.1, e.2.qty, e.2.rev))

/-- low_performing_products (data_processor.py lines 402-434): keep the
product groups with total quantity below the threshold, as triples, and
sort by total quantity ascending (stable). -/
def low_performing_products (txs : List Transaction) (threshold : Int) :
    List (String × Int × ℚ) :=
  let lowProducts := ((productStats txs).filter (fun e => decide (e.2.qty < threshold))).map
    (fun e => (e.1, e.2.qty, e.2.rev))
  pySort (fun a b => decide (a.2.1 ≤ b.2.1)) lowProducts

/-- The per-date accumulator dict value of find_peak_sales_day. -/
structure DayAcc where
  revenue : ℚ
  txCount : Nat
deriving DecidableEq, Repr

/-- The daily_totals accumulation of find_peak_sales_day
(data_processor.py lines 380-393).  Line 393 of the source evaluates
daily_totals[date]["transaction_count"] + 1 without assigning the result
back, so the stored count never changes from its initial 0; the fold
reproduces that: only the revenue field is updated. -/
def fpStep (acc : List (String × DayAcc)) (t : Transaction) :
    List (String × DayAcc) :=
  let amount := (t.quantity : ℚ) * t.unitPrice
  updOrInsert t.date (fun s => ⟨s.revenue + amount, s.txCount⟩) ⟨0, 0⟩ acc

/-- The daily_totals fold of find_peak_sales_day. -/
def fpDailyTotals (txs : List Transaction) : List (String × DayAcc) :=
  txs.foldl fpStep []

/-- find_peak_sales_day (data_processor.py lines 371-399): the first date
with maximal accumulated revenue, with its revenue and (never
incremented) transaction count; (None, 0.0, 0) when there are no
records. -/
def find_peak_sales_day (txs : List Transaction) : Option String × ℚ × Nat :=
  match fpDailyTotals txs with
  | [] => (none, 0, 0)
  | x :: xs =>
      let best := pyMaxBy (fun e => e.2.revenue) x xs
      (some best.1, best.2.revenue, best.2.txCount)

/-! ## src/utils/api_handler.py -/

/-- The key-preparation step of _extract_numeric_product_id: strip the
input; when the first character upper-cases to P, drop it and strip
again. -/
def stripKey (p : String) : String :=
  let s := pyStrip p
  if pyFirstUpperIs s 'P' then pyStrip (pyDropFirst s) else s

/-- _extract_numeric_product_id (api_handler.py lines 99-128): strip the
argument, fail on None or the empty string, drop a single leading P or p
(then strip again), parse the remainder as an int, fail if parsing fails
or the value is not positive, and fold the value into 1..100 via
((id - 1) % 100) + 1. -/
def _extract_numeric_product_id (product_id : Option String) : Option Int :=
  match product_id with
  | none => none
  | some p =>
      if pyStrip p = "" then none
      else
        match pyParseInt (stripKey p) with
        | none => none
        | some n => if n ≤ 0 then none else some ((n - 1) % 100 + 1)

/-- The body of the enrich_sales_data loop (api_handler.py lines 172-197)
for one transaction: derive the numeric key from ProductID; when it
exists in the product mapping populate the three API fields from the
matched entry with API_Match true, otherwise set them to None with
API_Match false.  On the typed record the guarded operations are total,
so the except branch (which also degrades to the no-match record) is
unreachable. -/
def enrichRecord (productMapping : List (Int × ProductInfo)) (t : Transaction) :
    EnrichedTransaction :=
  match _extract_numeric_product_id (some t.productID) with
  | some k =>
      match productMapping.lookup k with
      | some info => ⟨t, info.category, info.brand, info.rating, true⟩
      | none => ⟨t, none, none, none, false⟩
  | none => ⟨t, none, none, none, false⟩

/-- enrich_sales_data (api_handler.py lines 131-200): one enriched record
per input record, in input order.  (The final save_enriched_data call is
file output, excluded from the modelled core.) -/
def enrich_sales_data (txs : List Transaction)
    (productMapping : List (Int × ProductInfo)) : List EnrichedTransaction :=
  txs.map (enrichRecord productMapping)

/-! ## src/utils/report_generator.py -/

/-- _tx_amount (report_generator.py lines 28-31); _safe_int and
_safe_float are the identity on the typed record's fields. -/
def _tx_amount (t : Transaction) : ℚ := (t.quantity : ℚ) * t.unitPrice

/-- _region_table (report_generator.py lines 41-62): the same region
accumulation as region_wise_sales, rows (region, sales, unrounded
percentage, count) sorted by sales descending, plus the grand total. -/
def _region_table (txs : List Transaction) :
    List (String × ℚ × ℚ × Nat) × ℚ :=
  let ra := regionAccum txs
  let rows := ra.1.map (fun e =>
    (e.1, e.2.sales, if 0 < ra.2 then e.2.sales / ra.2 * 100 else 0, e.2.count))
  (pySort (fun a b => decide (b.2.1 ≤ a.2.1)) rows, ra.2)

/-- _top_products (report_generator.py lines 65-81): the same per-product
accumulation, as triples, sorted by quantity descending, first n. -/
def _top_products (txs : List Transaction) (n : Nat) : List (String × Int × ℚ) :=
  let items := (productStats txs).map (fun e => (e.1, e.2.qty, e.2.rev))
  (pySort (fun a b => decide (b.2.1 ≤ a.2.1)) items).take n

/-- Code-point lexicographic comparison of character lists, Python string
comparison. -/
def charListLe : List Char → List Char → Bool
  | [], _ => true
  | _ :: _, [] => false
  | a :: as, b :: bs =>
      if a.toNat < b.toNat then true
      else if b.toNat < a.toNat then false
      else charListLe as bs

/-- Python string less-or-equal (code-point lexicographic). -/
def pyStrLe (a b : String) : Bool := charListLe a.data b.data

/-- Python set.add on a set modelled as a duplicate-free list: only the
cardinality of the set is ever consumed downstream. -/
def insertNew (x : String) (l : List String) : List String :=
  if x ∈ l then l else l ++ [x]

/-- The per-date accumulator dict value of _daily_trend. -/
structure TrendAcc where
  rev : ℚ
  count : Nat
  customers : List String
deriving DecidableEq, Repr

/-- The daily accumulation loop of _daily_trend (report_generator.py
lines 105-116): add the amount, bump the count, and record the customer
id in the per-date set when it is a non-empty string. -/
def trendStep (acc : List (String × TrendAcc)) (t : Transaction) :
    List (String × TrendAcc) :=
  let amt := _tx_amount t
  updOrInsert t.date
    (fun s =>
      if t.customerID ≠ "" then
        ⟨s.rev + amt, s.count + 1, insertNew t.customerID s.customers⟩
      else ⟨s.rev + amt, s.count + 1, s.customers⟩)
    ⟨0, 0, []⟩ acc

/-- The daily accumulation fold of _daily_trend. -/
def trendDaily (txs : List Transaction) : List (String × TrendAcc) :=
  txs.foldl trendStep []

/-- _daily_trend (report_generator.py lines 102-123): rows (date, revenue,
count, distinct customers), sorted by date ascending (Python string
order). -/
def _daily_trend (txs : List Transaction) : List (String × ℚ × Nat × Nat) :=
  let rows := (trendDaily txs).map (fun e =>
    (e.1, e.2.rev, e.2.count, e.2.customers.length))
  pySort (fun a b => pyStrLe a.1 b.1) rows

/-- _peak_day (report_generator.py lines 126-131): the first trend row
with maximal revenue, as (date, revenue, count); (None, 0.0, 0) on an
empty trend. -/
def _peak_day (txs : List Transaction) : Option String × ℚ × Nat :=
  match _daily_trend txs with
  | [] => (none, 0, 0)
  | x :: xs =>
      let best := pyMaxBy (fun r => r.2.1) x xs
      (some best.1, best.2.1, best.2.2.1)

/-! ## Lemmas about the Python-semantics primitives -/

lemma insertSorted_perm {α : Type} (le : α → α → Bool) (a : α) (l : List α) :
    (insertSorted le a l).Perm (a :: l) := by
  induction l with
  | nil => simp [insertSorted]
  | cons b t ih =>
      simp only [insertSorted]
      by_cases h : le a b
      · simp [h]
      · simp only [h, if_false]
        exact (ih.cons b).trans (List.Perm.swap a b t)

lemma pySort_perm {α : Type} (le : α → α → Bool) (l : List α) :
    (pySort le l).Perm l := by
  induction l with
  | nil => simp [pySort]
  | cons x xs ih =>
      simp only [pySort]
      exact (insertSorted_perm le x (pySort le xs)).trans (ih.cons x)

lemma insertSorted_map {α β : Type} (g : α → β) (le : α → α → Bool)
    (le' : β → β → Bool) (h : ∀ a b, le' (g a) (g b) = le a b) (a : α)
    (l : List α) :
    insertSorted le' (g a) (l.map g) = (insertSorted le a l).map g := by
  induction l with
  | nil => simp [insertSorted]
  | cons b t ih =>
      simp only [List.map_cons, insertSorted, h]
      by_cases hb : le a b
      · simp [hb]
      · simp [hb, ih]

lemma pySort_map {α β : Type} (g : α → β) (le : α → α → Bool)
    (le' : β → β → Bool) (h : ∀ a b, le' (g a) (g b) = le a b) (l : List α) :
    pySort le' (l.map g) = (pySort le l).map g := by
  induction l with
  | nil => simp [pySort]
  | cons x xs ih =>
      simp only [List.map_cons, pySort, ih]
      exact insertSorted_map g le le' h x (pySort le xs)

lemma updOrInsert_map {K V W : Type} [DecidableEq K] (p : V → W) (k : K)
    (f : V → V) (f' : W → W) (v₀ : V) (hf : ∀ v, p (f v) = f' (p v))
    (l : List (K × V)) :
    (updOrInsert k f v₀ l).map (Prod.map id p)
      = updOrInsert k f' (p v₀) (l.map (Prod.map id p)) := by
  induction l with
  | nil => simp [updOrInsert, hf]
  | cons e t ih =>
      simp only [updOrInsert, List.map_cons, Prod.map_fst, id]
      by_cases h : e.1 = k
      · simp [h, Prod.map, hf]
      · simp [h, Prod.map, ih]

lemma updOrInsert_forall {K V : Type} [DecidableEq K] (P : V → Prop) (k : K)
    (f : V → V) (v₀ : V) (h₀ : P (f v₀)) (hf : ∀ v, P v → P (f v))
    (l : List (K × V)) (hl : ∀ e ∈ l, P e.2) :
    ∀ e ∈ updOrInsert k f v₀ l, P e.2 := by
  induction l with
  | nil =>
      intro e he
      simp only [updOrInsert, List.mem_singleton] at he
      simpa [he] using h₀
  | cons x t ih =>
      intro e he
      simp only [updOrInsert] at he
      by_cases h : x.1 = k
      · simp only [h, if_true] at he
        rcases List.mem_cons.mp he with h1 | h1
        · simpa [h1] using hf x.2 (hl x (List.mem_cons_self x t))
        · exact hl e (List.mem_cons_of_mem x h1)
      · simp only [h, if_false] at he
        rcases List.mem_cons.mp he with h1 | h1
        · simpa [h1] using hl x (List.mem_cons_self x t)
        · exact ih (fun y hy => hl y (List.mem_cons_of_mem x hy)) e h1

lemma updOrInsert_sum {K V : Type} [DecidableEq K] (F : V → ℚ) (k : K)
    (f : V → V) (v₀ : V) (a : ℚ) (hf : ∀ v, F (f v) = F v + a)
    (h₀ : F v₀ = 0) (l : List (K × V)) :
    ((updOrInsert k f v₀ l).map (fun e => F e.2)).sum
      = ((l.map (fun e => F e.2)).sum) + a := by
  induction l with
  | nil => simp [updOrInsert, hf, h₀]
  | cons e t ih =>
      simp only [updOrInsert]
      by_cases h : e.1 = k
      · simp only [h, if_true, List.map_cons, List.sum_cons, hf]
        ring
      · simp only [h, if_false, List.map_cons, List.sum_cons, ih]
        ring

lemma pyMaxBy_mem {α : Type} (key : α → ℚ) (x : α) (xs : List α) :
    pyMaxBy key x xs ∈ x :: xs := by
  induction xs generalizing x with
  | nil => simp [pyMaxBy]
  | cons y ys ih =>
      have hstep : pyMaxBy key x (y :: ys)
          = pyMaxBy key (if key x < key y then y else x) ys := rfl
      rw [hstep]
      rcases List.mem_cons.mp (ih (if key x < key y then y else x)) with h | h
      · rw [h]
        by_cases hc : key x < key y
        · rw [if_pos hc]
          exact List.mem_cons_of_mem x (List.mem_cons_self y ys)
        · rw [if_neg hc]
          exact List.mem_cons_self x (y :: ys)
      · exact List.mem_cons_of_mem x (List.mem_cons_of_mem y h)

lemma pyMaxBy_le {α : Type} (key : α → ℚ) (x : α) (xs : List α) :
    ∀ z ∈ x :: xs, key z ≤ key (pyMaxBy key x xs) := by
  induction xs generalizing x with
  | nil =>
      intro z hz
      simp only [List.mem_singleton] at hz
      simp [hz, pyMaxBy]
  | cons y ys ih =>
      intro z hz
      have hstep : pyMaxBy key x (y :: ys)
          = pyMaxBy key (if key x < key y then y else x) ys := rfl
      rw [hstep]
      have hxm : key x ≤ key (if key x < key y then y else x) := by
        by_cases hc : key x < key y
        · rw [if_pos hc]; exact le_of_lt hc
        · rw [if_neg hc]
      have hym : key y ≤ key (if key x < key y then y else x) := by
        by_cases hc : key x < key y
        · rw [if_pos hc]
        · rw [if_neg hc]; exact le_of_not_lt hc
      have hm := ih (if key x < key y then y else x)
      rcases List.mem_cons.mp hz with h | h
      · subst h
        exact le_trans hxm (hm _ (List.mem_cons_self _ ys))
      · rcases List.mem_cons.mp h with h1 | h1
        · subst h1
          exact le_trans hym (hm _ (List.mem_cons_self _ ys))
        · exact hm z (List.mem_cons_of_mem _ h1)

lemma greatest_key_eq {α β : Type} (keyA : α → ℚ) (keyB : β → ℚ) {a : α}
    {b : β} {l : List α} {l2 : List β} (haMem : a ∈ l)
    (haLe : ∀ y ∈ l, keyA y ≤ keyA a) (hbMem : b ∈ l2)
    (hbLe : ∀ y ∈ l2, keyB y ≤ keyB b)
    (hperm : (l.map keyA).Perm (l2.map keyB)) : keyA a = keyB b := by
  have h1 : keyA a ∈ l2.map keyB :=
    hperm.mem_iff.mp (List.mem_map_of_mem keyA haMem)
  obtain ⟨y, hy, hky⟩ := List.mem_map.mp h1
  have h2 : keyB b ∈ l.map keyA :=
    hperm.mem_iff.mpr (List.mem_map_of_mem keyB hbMem)
  obtain ⟨z, hz, hkz⟩ := List.mem_map.mp h2
  exact le_antisymm (hky ▸ hbLe y hy) (hkz ▸ haLe z hz)

lemma countP_one_unique {α : Type} (p : α → Bool) {l : List α}
    (h : l.countP p = 1) {a b : α} (ha : a ∈ l) (hb : b ∈ l)
    (hpa : p a = true) (hpb : p b = true) : a = b := by
  rw [List.countP_eq_length_filter] at h
  obtain ⟨c, hc⟩ := List.length_eq_one.mp h
  have h1 : a ∈ l.filter p := List.mem_filter.mpr ⟨ha, hpa⟩
  have h2 : b ∈ l.filter p := List.mem_filter.mpr ⟨hb, hpb⟩
  rw [hc, List.mem_singleton] at h1 h2
  rw [h1, h2]

lemma pyRound2_zero : pyRound2 0 = 0 := by norm_num [pyRound2]

lemma abs_pyRound2_sub (q : ℚ) : |pyRound2 q - q| ≤ 1 / 200 := by
  have key : ∀ r : Int, |(r : ℚ) - q * 100| ≤ 1 / 2 →
      |(r : ℚ) / 100 - q| ≤ 1 / 200 := by
    intro r hr
    have heq : (r : ℚ) / 100 - q = ((r : ℚ) - q * 100) / 100 := by ring
    rw [heq, abs_div, abs_of_nonneg (by norm_num : (0:ℚ) ≤ 100)]
    linarith
  have h1 : ((⌊q * 100⌋ : ℚ)) ≤ q * 100 := Int.floor_le _
  have h2 : q * 100 < (⌊q * 100⌋ : ℚ) + 1 := Int.lt_floor_add_one _
  simp only [pyRound2]
  by_cases hc1 : q * 100 - (⌊q * 100⌋ : ℚ) < 1 / 2
  · rw [if_pos hc1]
    apply key
    rw [abs_sub_comm, abs_of_nonneg (by linarith)]
    linarith
  · rw [if_neg hc1]
    by_cases hc2 : (1 : ℚ) / 2 < q * 100 - (⌊q * 100⌋ : ℚ)
    · rw [if_pos hc2]
      apply key
      rw [abs_of_nonneg (by push_cast; linarith)]
      push_cast
      linarith
    · rw [if_neg hc2]
      have heq : q * 100 - (⌊q * 100⌋ : ℚ) = 1 / 2 :=
        le_antisymm (le_of_not_lt hc2) (le_of_not_lt hc1)
      by_cases hpar : ⌊q * 100⌋ % 2 = 0
      · rw [if_pos hpar]
        apply key
        rw [abs_sub_comm, abs_of_nonneg (by linarith)]
        linarith
      · rw [if_neg hpar]
        apply key
        rw [abs_of_nonneg (by push_cast; linarith)]
        push_cast
        linarith

lemma list_abs_sum_le {l : List ℚ} {c : ℚ} (h : ∀ x ∈ l, |x| ≤ c) :
    |l.sum| ≤ l.length * c := by
  induction l with
  | nil => simp
  | cons x t ih =>
      simp only [List.sum_cons, List.length_cons]
      have hx := h x (List.mem_cons_self x t)
      have ht := ih (fun y hy => h y (List.mem_cons_of_mem x hy))
      calc |x + t.sum| ≤ |x| + |t.sum| := abs_add _ _
        _ ≤ c + t.length * c := add_le_add hx ht
        _ = (t.length + 1 : ℕ) * c := by push_cast; ring

/-! ## Facts about the embedded functions -/

lemma fpDailyTotals_count (txs : List Transaction) :
    ∀ e ∈ fpDailyTotals txs, e.2.txCount = 0 := by
  have h : ∀ (l : List Transaction) (acc : List (String × DayAcc)),
      (∀ e ∈ acc, e.2.txCount = 0) →
      ∀ e ∈ l.foldl fpStep acc, e.2.txCount = 0 := by
    intro l
    induction l with
    | nil => intro acc hacc e he; exact hacc e he
    | cons t ts ih =>
        intro acc hacc
        simp only [List.foldl_cons]
        refine ih (fpStep acc t) ?_
        show ∀ e ∈ updOrInsert t.date
            (fun s => ⟨s.revenue + (t.quantity : ℚ) * t.unitPrice, s.txCount⟩)
            (⟨0, 0⟩ : DayAcc) acc, e.2.txCount = 0
        exact updOrInsert_forall (fun s => s.txCount = 0) t.date
          (fun s => ⟨s.revenue + (t.quantity : ℚ) * t.unitPrice, s.txCount⟩)
          ⟨0, 0⟩ rfl (fun v hv => hv) acc hacc
  exact h txs [] (by simp)

lemma find_peak_count_zero (txs : List Transaction) :
    (find_peak_sales_day txs).2.2 = 0 := by
  rcases h : fpDailyTotals txs with _ | ⟨x, xs⟩
  · simp [find_peak_sales_day, h]
  · simp only [find_peak_sales_day, h]
    have hmem : pyMaxBy (fun e => e.2.revenue) x xs ∈ fpDailyTotals txs := by
      rw [h]; exact pyMaxBy_mem _ x xs
    exact fpDailyTotals_count txs _ hmem

/-- C2: the transaction-count component of find_peak_sales_day is always
0: the source increments the per-date count with an expression whose
result is discarded (data_processor.py line 393), so the count stays at
its initial value; on an empty input the function returns (None, 0.0, 0). -/
theorem claim_C2 (txs : List Transaction) :
    (find_peak_sales_day txs).2.2 = 0 ∧
      find_peak_sales_day [] = (none, 0, 0) :=
  ⟨find_peak_count_zero txs, rfl⟩

lemma stageA_length (txs : List Transaction) :
    (stageA txs).1.length + (stageA txs).2 = txs.length := by
  have h : ∀ (l : List Transaction) (acc : List Transaction × Nat),
      ((l.foldl stageAStep acc).1).length + (l.foldl stageAStep acc).2
        = acc.1.length + acc.2 + l.length := by
    intro l
    induction l with
    | nil => intro acc; simp
    | cons t ts ih =>
        intro acc
        simp only [List.foldl_cons]
        rw [ih (stageAStep acc t)]
        rcases hv : validateRecord t with _ | tc <;>
          simp [stageAStep, hv] <;> omega
  simpa using h txs ([], 0)

/-- C4: with no optional filters, validate_and_filter splits the input
exactly: the kept records plus the invalid count account for every input
record. -/
theorem claim_C4 (txs : List Transaction) :
    (validate_and_filter txs none none none).1.length
      + (validate_and_filter txs none none none).2.1 = txs.length := by
  have h : validate_and_filter txs none none none
      = ((stageA txs).1, (stageA txs).2,
         ⟨txs.length, (stageA txs).2, 0, 0, (stageA txs).1.length⟩) := rfl
  rw [h]
  exact stageA_length txs

/-- C5: for every input and every combination of optional filters, the
summary counts are exact and mutually exclusive: invalid +
filtered_by_region + filtered_by_amount + final_count = total_input =
length of the input, and final_count is the length of the returned valid
list (each record is counted at exactly one removal stage or in the
final count). -/
theorem claim_C5 (txs : List Transaction) (region : Option String)
    (minA maxA : Option ℚ) :
    (validate_and_filter txs region minA maxA).2.2.invalid
        + (validate_and_filter txs region minA maxA).2.2.filteredByRegion
        + (validate_and_filter txs region minA maxA).2.2.filteredByAmount
        + (validate_and_filter txs region minA maxA).2.2.finalCount
      = (validate_and_filter txs region minA maxA).2.2.totalInput
    ∧ (validate_and_filter txs region minA maxA).2.2.totalInput = txs.length
    ∧ (validate_and_filter txs region minA maxA).2.2.finalCount
      = (validate_and_filter txs region minA maxA).1.length := by
  have hA := stageA_length txs
  have hf1 := List.length_filter_le (inAmountRange minA maxA) (stageA txs).1
  rcases region with _ | r
  · rcases hm : (minA.isSome || maxA.isSome) with _ | _ <;>
      refine ⟨?_, ?_, ?_⟩ <;> simp [validate_and_filter, hm] <;> omega
  · have hf2 := List.length_filter_le
      (fun t : Transaction => pyLower (pyStrip t.region) == pyLower (pyStrip r))
      (stageA txs).1
    have hf3 := List.length_filter_le (inAmountRange minA maxA)
      ((stageA txs).1.filter
        (fun t : Transaction => pyLower (pyStrip t.region) == pyLower (pyStrip r)))
    by_cases hr : pyStrip r = "" <;>
      rcases hm : (minA.isSome || maxA.isSome) with _ | _ <;>
        refine ⟨?_, ?_, ?_⟩ <;>
          simp [validate_and_filter, hr, hm, -List.filter_filter] <;> omega

lemma validateRecord_some {t t' : Transaction}
    (h : validateRecord t = some t') :
    t' = t ∧ 0 < t.quantity ∧ 0 < t.unitPrice := by
  unfold validateRecord at h
  split at h
  · exact absurd h (by simp)
  · rename_i hnum
    split at h
    · exact absurd h (by simp)
    · rename_i hpos
      split at h
      · exact absurd h (by simp)
      · split at h
        · exact absurd h (by simp)
        · split at h
          · exact absurd h (by simp)
          · push_neg at hpos
            injection h with h1
            exact ⟨h1.symm, hpos.1, hpos.2⟩

lemma stageA_subset (txs : List Transaction) :
    ∀ t ∈ (stageA txs).1, t ∈ txs ∧ 0 < t.quantity ∧ 0 < t.unitPrice := by
  have h : ∀ (l : List Transaction) (acc : List Transaction × Nat),
      ∀ t ∈ (l.foldl stageAStep acc).1,
        t ∈ acc.1 ∨ (t ∈ l ∧ 0 < t.quantity ∧ 0 < t.unitPrice) := by
    intro l
    induction l with
    | nil => intro acc t ht; exact Or.inl ht
    | cons x xs ih =>
        intro acc t ht
        simp only [List.foldl_cons] at ht
        rcases ih (stageAStep acc x) t ht with hin | hin
        · rcases hv : validateRecord x with _ | tc
          · rw [stageAStep, hv] at hin
            exact Or.inl hin
          · rw [stageAStep, hv] at hin
            rcases List.mem_append.mp hin with h1 | h1
            · exact Or.inl h1
            · rw [List.mem_singleton] at h1
              obtain ⟨he, hq, hp⟩ := validateRecord_some hv
              subst h1
              rw [he]
              exact Or.inr ⟨List.mem_cons_self x xs, hq, hp⟩
        · exact Or.inr ⟨List.mem_cons_of_mem x hin.1, hin.2⟩
  intro t ht
  rcases h txs ([], 0) t ht with hin | hin
  · simp at hin
  · exact hin

lemma validate_and_filter_subset (txs : List Transaction)
    (region : Option String) (minA maxA : Option ℚ) :
    ∀ t ∈ (validate_and_filter txs region minA maxA).1, t ∈ (stageA txs).1 := by
  intro t ht
  simp only [validate_and_filter] at ht
  rcases region with _ | r
  · rcases hm : (minA.isSome || maxA.isSome) with _ | _ <;>
      simp only [hm] at ht <;> simp_all [List.mem_filter]
  · by_cases hr : pyStrip r = "" <;>
      rcases hm : (minA.isSome || maxA.isSome) with _ | _ <;>
        simp only [hm, hr] at ht <;>
        simp_all [List.mem_filter]

/-- C10: every record kept by validate_and_filter is one of the input
records, unchanged (on the parsed-record shape the int/float coercions
that the source applies to Quantity and UnitPrice before storing tx_clean
are the identity), and every kept record has positive quantity and
positive unit price. -/
theorem claim_C10 (txs : List Transaction) (region : Option String)
    (minA maxA : Option ℚ) :
    (∀ t ∈ (validate_and_filter txs region minA maxA).1,
        t ∈ txs ∧ 0 < t.quantity ∧ 0 < t.unitPrice)
    ∧ ∀ t t' : Transaction, validateRecord t = some t' → t' = t := by
  constructor
  · intro t ht
    exact stageA_subset txs t (validate_and_filter_subset txs region minA maxA t ht)
  · intro t t' h
    exact (validateRecord_some h).1

/-- C6: _extract_numeric_product_id returns no key on None, on a blank
string, when the remainder after stripping a single leading P/p fails
integer parsing, and when it parses to a non-positive integer; otherwise
it folds the parsed id into 1..100 via ((id - 1) % 100) + 1, so P150
maps to the same key as P50 and P100 maps to itself. -/
theorem claim_C6 :
    _extract_numeric_product_id none = none
    ∧ (∀ s : String, pyStrip s = "" →
        _extract_numeric_product_id (some s) = none)
    ∧ (∀ s : String, pyParseInt (stripKey s) = none →
        _extract_numeric_product_id (some s) = none)
    ∧ (∀ (s : String) (n : Int), pyParseInt (stripKey s) = some n → n ≤ 0 →
        _extract_numeric_product_id (some s) = none)
    ∧ (∀ (s : String) (n : Int), pyParseInt (stripKey s) = some n → 0 < n →
        _extract_numeric_product_id (some s) = some ((n - 1) % 100 + 1))
    ∧ _extract_numeric_product_id (some "P150")
        = _extract_numeric_product_id (some "P50")
    ∧ _extract_numeric_product_id (some "P150") = some 50
    ∧ _extract_numeric_product_id (some "P100") = some 100 := by
  refine ⟨rfl, ?_, ?_, ?_, ?_, by decide, by decide, by decide⟩
  · intro s h
    simp [_extract_numeric_product_id, h]
  · intro s h
    by_cases hs : pyStrip s = "" <;>
      simp [_extract_numeric_product_id, hs, h]
  · intro s n h hn
    by_cases hs : pyStrip s = "" <;>
      simp [_extract_numeric_product_id, hs, h, hn]
  · intro s n h hn
    by_cases hs : pyStrip s = ""
    · have hk : stripKey s = "" := by
        simp only [stripKey]
        rw [hs, show pyFirstUpperIs "" 'P' = false from by decide]
        simp
      rw [hk, show pyParseInt "" = none from by decide] at h
      exact Option.noConfusion h
    · simp [_extract_numeric_product_id, hs, h, not_le.mpr hn]

/-- C7: enrich_sales_data is total and order-preserving (one output per
input record, in order), preserves the base record, sets api_match with
the three API fields from the matched entry exactly when the folded
numeric key derived from ProductID is present in the lookup, and
degrades every record to the unmatched shape on the empty lookup. -/
theorem claim_C7 (txs : List Transaction) (m : List (Int × ProductInfo)) :
    (enrich_sales_data txs m).length = txs.length
    ∧ (∀ i : Nat, (enrich_sales_data txs m)[i]?
        = (txs[i]?).map (enrichRecord m))
    ∧ (∀ t : Transaction, (enrichRecord m t).tx = t)
    ∧ (∀ t : Transaction,
        match _extract_numeric_product_id (some t.productID) with
        | some k =>
            match m.lookup k with
            | some info => enrichRecord m t
                = ⟨t, info.category, info.brand, info.rating, true⟩
            | none => enrichRecord m t = ⟨t, none, none, none, false⟩
        | none => enrichRecord m t = ⟨t, none, none, none, false⟩)
    ∧ (∀ t : Transaction,
        enrichRecord [] t = ⟨t, none, none, none, false⟩) := by
  refine ⟨?_, ?_, ?_, ?_, ?_⟩
  · simp [enrich_sales_data]
  · intro i
    simp [enrich_sales_data, List.getElem?_map]
  · intro t
    unfold enrichRecord
    rcases h : _extract_numeric_product_id (some t.productID) with _ | k
    · rfl
    · rcases h2 : m.lookup k with _ | info <;> simp [h2]
  · intro t
    rcases h : _extract_numeric_product_id (some t.productID) with _ | k
    · simp only [h]
      simp [enrichRecord, h]
    · simp only [h]
      rcases h2 : m.lookup k with _ | info <;>
        simp [enrichRecord, h, h2]
  · intro t
    rcases h : _extract_numeric_product_id (some t.productID) with _ | k <;>
      simp [enrichRecord, h]

/-- The product groups as (name, total quantity, total revenue) triples,
in first-seen order (the items both top_selling_products and
low_performing_products draw from). -/
def groupTriples (txs : List Transaction) : List (String × Int × ℚ) :=
  (productStats txs).map (fun e => (e.1, e.2.qty, e.2.rev))

/-- C8: with threshold 10 and n at least the number of product groups,
top_selling_products and low_performing_products partition the groups at
the total_quantity < 10 boundary: every group appears in the top-selling
result (and nothing else does), and the low-performing result contains
exactly the groups with total quantity below 10. -/
theorem claim_C8 (txs : List Transaction) (n : Nat)
    (hn : (productStats txs).length ≤ n) :
    (∀ p ∈ groupTriples txs, p ∈ top_selling_products txs n)
    ∧ (∀ p ∈ top_selling_products txs n, p ∈ groupTriples txs)
    ∧ (∀ p : String × Int × ℚ,
        p ∈ low_performing_products txs 10 ↔
          p ∈ groupTriples txs ∧ p.2.1 < 10) := by
  have hlen : (pySort (fun a b => decide (b.2.qty ≤ a.2.qty))
      (productStats txs)).length ≤ n := by
    rw [(pySort_perm _ _).length_eq]
    exact hn
  have htop : top_selling_products txs n
      = ((pySort (fun a b => decide (b.2.qty ≤ a.2.qty)) (productStats txs)).map
          (fun e => (e.1, e.2.qty, e.2.rev))) := by
    simp only [top_selling_products]
    rw [List.take_of_length_le hlen]
  have hmem : ∀ p : String × Int × ℚ,
      p ∈ top_selling_products txs n ↔ p ∈ groupTriples txs := by
    intro p
    rw [htop]
    exact ((pySort_perm _ _).map _).mem_iff
  refine ⟨fun p hp => (hmem p).mpr hp, fun p hp => (hmem p).mp hp, ?_⟩
  intro p
  have hlow : low_performing_products txs 10
      = pySort (fun a b => decide (a.2.1 ≤ b.2.1))
          (((productStats txs).filter (fun e => decide (e.2.qty < 10))).map
            (fun e => (e.1, e.2.qty, e.2.rev))) := by
    simp only [low_performing_products]
  rw [hlow, (pySort_perm _ _).mem_iff]
  constructor
  · intro hp
    obtain ⟨e, he, heq⟩ := List.mem_map.mp hp
    obtain ⟨hes, hed⟩ := List.mem_filter.mp he
    refine ⟨heq ▸ List.mem_map_of_mem _ hes, ?_⟩
    have h1 : p.2.1 = e.2.qty := by rw [← heq]
    rw [h1]
    exact of_decide_eq_true hed
  · intro hp
    obtain ⟨e, he, heq⟩ := List.mem_map.mp hp.1
    refine List.mem_map.mpr ⟨e, List.mem_filter.mpr ⟨he, ?_⟩, heq⟩
    have : e.2.qty = p.2.1 := by rw [← heq]
    rw [this]
    exact decide_eq_true hp.2

lemma list_sum_map_sub {α : Type} (l : List α) (f g : α → ℚ) :
    (l.map (fun x => f x - g x)).sum = (l.map f).sum - (l.map g).sum := by
  induction l with
  | nil => simp
  | cons x t ih =>
      simp only [List.map_cons, List.sum_cons, ih]
      ring

lemma regionAccum_total (txs : List Transaction) :
    (regionAccum txs).2 = calculate_total_revenue txs := by
  have h : ∀ (l : List Transaction) (acc : List (String × RegionAcc) × ℚ),
      (l.foldl regionStep acc).2
        = l.foldl (fun total t => total + (t.quantity : ℚ) * t.unitPrice) acc.2 := by
    intro l
    induction l with
    | nil => intro acc; rfl
    | cons t ts ih =>
        intro acc
        simp only [List.foldl_cons]
        rw [ih (regionStep acc t)]
        rfl
  exact h txs ([], 0)

lemma regionAccum_sales (txs : List Transaction) :
    ((regionAccum txs).1.map (fun e => e.2.sales)).sum = (regionAccum txs).2 := by
  have h : ∀ (l : List Transaction) (acc : List (String × RegionAcc) × ℚ),
      (acc.1.map (fun e => e.2.sales)).sum = acc.2 →
      ((l.foldl regionStep acc).1.map (fun e => e.2.sales)).sum
        = (l.foldl regionStep acc).2 := by
    intro l
    induction l with
    | nil => intro acc hacc; exact hacc
    | cons t ts ih =>
        intro acc hacc
        simp only [List.foldl_cons]
        refine ih (regionStep acc t) ?_
        have h1 := updOrInsert_sum (fun s : RegionAcc => s.sales) t.region
          (fun s => ⟨s.sales + (t.quantity : ℚ) * t.unitPrice, s.count + 1⟩)
          ⟨0, 0⟩ ((t.quantity : ℚ) * t.unitPrice) (fun v => rfl) rfl acc.1
        show ((updOrInsert t.region
            (fun s => ⟨s.sales + (t.quantity : ℚ) * t.unitPrice, s.count + 1⟩)
            (⟨0, 0⟩ : RegionAcc) acc.1).map (fun e => e.2.sales)).sum
          = acc.2 + (t.quantity : ℚ) * t.unitPrice
        exact h1.trans (by rw [hacc])
  exact h txs ([], 0) rfl

/-- C9: every region entry's percentage is its total sales divided by the
grand total, times 100, rounded to 2 decimal places (0.0 for every
region when the grand total is not positive), and when the grand total
is positive the percentages sum to 100 up to the per-region rounding
error (at most 1/200 per region). -/
theorem claim_C9 (txs : List Transaction) :
    (∀ e ∈ region_wise_sales txs,
        e.2.percentage =
          if 0 < calculate_total_revenue txs then
            pyRound2 (e.2.totalSales / calculate_total_revenue txs * 100)
          else 0)
    ∧ (0 < calculate_total_revenue txs →
        |((region_wise_sales txs).map (fun e => e.2.percentage)).sum - 100|
          ≤ (region_wise_sales txs).length * (1 / 200)) := by
  have hG : (regionAccum txs).2 = calculate_total_revenue txs :=
    regionAccum_total txs
  have hdef : region_wise_sales txs
      = pySort (fun a b => decide (b.2.totalSales ≤ a.2.totalSales))
          ((regionAccum txs).1.map (fun e =>
            (e.1, RegionStat.mk e.2.sales e.2.count
              (if 0 < (regionAccum txs).2 then
                pyRound2 (e.2.sales / (regionAccum txs).2 * 100) else 0)))) := by
    simp only [region_wise_sales]
  constructor
  · intro e he
    rw [hdef] at he
    have he2 := (pySort_perm _ _).mem_iff.mp he
    obtain ⟨x, hx, hfx⟩ := List.mem_map.mp he2
    rw [← hfx]
    show (if 0 < (regionAccum txs).2 then
        pyRound2 (x.2.sales / (regionAccum txs).2 * 100) else 0)
      = if 0 < calculate_total_revenue txs then
          pyRound2 (x.2.sales / calculate_total_revenue txs * 100) else 0
    rw [hG]
  · intro hpos
    rw [← hG] at hpos
    have hne : (regionAccum txs).2 ≠ 0 := ne_of_gt hpos
    rw [hdef]
    have hperm := pySort_perm
      (fun a b => decide (b.2.totalSales ≤ a.2.totalSales))
      ((regionAccum txs).1.map (fun e =>
        (e.1, RegionStat.mk e.2.sales e.2.count
          (if 0 < (regionAccum txs).2 then
            pyRound2 (e.2.sales / (regionAccum txs).2 * 100) else 0))))
    rw [List.Perm.sum_eq (hperm.map (fun e => e.2.percentage)),
        hperm.length_eq, List.map_map, List.length_map]
    simp only [hpos, if_true]
    show |(List.map (fun x : String × RegionAcc =>
          pyRound2 (x.2.sales / (regionAccum txs).2 * 100))
          (regionAccum txs).1).sum - 100|
      ≤ ((regionAccum txs).1.length : ℚ) * (1 / 200)
    have h100 : ((regionAccum txs).1.map
        (fun x => x.2.sales / (regionAccum txs).2 * 100)).sum = 100 := by
      have hcongr : ((regionAccum txs).1.map
          (fun x => x.2.sales / (regionAccum txs).2 * 100))
          = ((regionAccum txs).1.map
            (fun x => x.2.sales * (100 / (regionAccum txs).2))) := by
        congr 1
        funext x
        ring
      rw [hcongr, List.sum_map_mul_right, regionAccum_sales txs]
      field_simp
    have hdiff : ((regionAccum txs).1.map
        (fun x => pyRound2 (x.2.sales / (regionAccum txs).2 * 100))).sum - 100
        = ((regionAccum txs).1.map
            (fun x => pyRound2 (x.2.sales / (regionAccum txs).2 * 100)
              - x.2.sales / (regionAccum txs).2 * 100)).sum := by
      rw [list_sum_map_sub, h100]
    rw [hdiff]
    have hb : ∀ y ∈ ((regionAccum txs).1.map
        (fun x => pyRound2 (x.2.sales / (regionAccum txs).2 * 100)
          - x.2.sales / (regionAccum txs).2 * 100)), |y| ≤ 1 / 200 := by
      intro y hy
      obtain ⟨x, hx, hxy⟩ := List.mem_map.mp hy
      rw [← hxy]
      exact abs_pyRound2_sub _
    have hfin := list_abs_sum_le hb
    simpa [List.length_map] using hfin

/-- The three raw input lines of the end-to-end scenario. -/
def demoLines : List String :=
  ["T001|2024-12-01|P101|Laptop|2|45,000|C001|North",
   "T002|2024-12-01|P5|Mouse|-1|500|C002|South",
   "X003|2024-12-02|P3|Keyboard|1|1500|C003|North"]

/-- The record the scenario's first line parses to. -/
def demoT001 : Transaction :=
  ⟨"T001", "2024-12-01", "P101", "Laptop", 2, 45000, "C001", "North"⟩

/-- The other two records the scenario lines parse to. -/
def demoT002 : Transaction :=
  ⟨"T002", "2024-12-01", "P5", "Mouse", -1, 500, "C002", "South"⟩

def demoX003 : Transaction :=
  ⟨"X003", "2024-12-02", "P3", "Keyboard", 1, 1500, "C003", "North"⟩

set_option maxHeartbeats 1600000 in
lemma demo_parse : parse_transactions demoLines = [demoT001, demoT002, demoX003] := by
  have hd1 : digitsToNat ['2'] = 2 := by decide
  have hd2 : digitsToNat ['4', '5', '0', '0', '0'] = 45000 := by decide
  have hd3 : digitsToNat ['1'] = 1 := by decide
  have hd4 : digitsToNat ['5', '0', '0'] = 500 := by decide
  have hd5 : digitsToNat ['1', '5', '0', '0'] = 1500 := by decide
  have h1 : parseLine "T001|2024-12-01|P101|Laptop|2|45,000|C001|North"
      = some demoT001 := by
    norm_num +decide [parseLine, pySplitChar, splitPAux, pyStrip, stripData,
      pyWhitespace, pyRemoveChar, pyParseInt, pyParseFloat, pyMantissa, pow10,
      hd1, hd2, demoT001]
  have h2 : parseLine "T002|2024-12-01|P5|Mouse|-1|500|C002|South"
      = some demoT002 := by
    norm_num +decide [parseLine, pySplitChar, splitPAux, pyStrip, stripData,
      pyWhitespace, pyRemoveChar, pyParseInt, pyParseFloat, pyMantissa, pow10,
      hd3, hd4, demoT002]
  have h3 : parseLine "X003|2024-12-02|P3|Keyboard|1|1500|C003|North"
      = some demoX003 := by
    norm_num +decide [parseLine, pySplitChar, splitPAux, pyStrip, stripData,
      pyWhitespace, pyRemoveChar, pyParseInt, pyParseFloat, pyMantissa, pow10,
      hd3, hd5, demoX003]
  simp [parse_transactions, demoLines, h1, h2, h3]

set_option maxHeartbeats 1600000 in
lemma demo_stageA : stageA [demoT001, demoT002, demoX003] = ([demoT001], 2) := by
  have hv1 : validateRecord demoT001 = some demoT001 := by
    norm_num +decide [validateRecord, pyStrip, stripData, pyWhitespace,
      pyStartsWith, demoT001]
  have hv2 : validateRecord demoT002 = none := by
    norm_num +decide [validateRecord, pyStrip, stripData, pyWhitespace,
      pyStartsWith, demoT002]
  have hv3 : validateRecord demoX003 = none := by
    norm_num +decide [validateRecord, pyStrip, stripData, pyWhitespace,
      pyStartsWith, demoX003]
  simp [stageA, stageAStep, hv1, hv2, hv3]

lemma demo_vf : validate_and_filter (parse_transactions demoLines) none none none
    = ([demoT001], 2, ⟨3, 2, 0, 0, 1⟩) := by
  rw [demo_parse]
  simp [validate_and_filter, demo_stageA]

/-- C3: parsing the three scenario lines and validating with no optional
filters keeps exactly the T001 record with invalid_count 2 (negative
quantity and bad transaction-id prefix); on the valid set the total
revenue is 90000 and the region-wise sales are a single North entry with
total sales 90000, one transaction, percentage 100. -/
theorem claim_C3 :
    (validate_and_filter (parse_transactions demoLines) none none none).1
      = [demoT001]
    ∧ (validate_and_filter (parse_transactions demoLines) none none none).2.1 = 2
    ∧ calculate_total_revenue
        ((validate_and_filter (parse_transactions demoLines) none none none).1)
      = 90000
    ∧ region_wise_sales
        ((validate_and_filter (parse_transactions demoLines) none none none).1)
      = [("North", ⟨90000, 1, 100⟩)] := by
  refine ⟨by rw [demo_vf], by rw [demo_vf], ?_, ?_⟩
  · rw [demo_vf]
    norm_num [calculate_total_revenue, demoT001]
  · rw [demo_vf]
    norm_num +decide [region_wise_sales, regionAccum, regionStep, updOrInsert,
      pySort, insertSorted, pyRound2, demoT001]

/-! ## Correspondence between the report renderer and the aggregator -/

/-- Conversion of a _region_table row (region, sales, unrounded
percentage, count) into a region_wise_sales entry: same region, sales
and count, with the percentage rounded to 2 decimal places. -/
def rowToStat (row : String × ℚ × ℚ × Nat) : String × RegionStat :=
  (row.1, ⟨row.2.1, row.2.2.2, pyRound2 row.2.2.1⟩)

lemma c1_region (txs : List Transaction) :
    region_wise_sales txs = ((_region_table txs).1).map rowToStat := by
  have hsort := pySort_map rowToStat
    (fun a b : String × ℚ × ℚ × Nat => decide (b.2.1 ≤ a.2.1))
    (fun a b : String × RegionStat => decide (b.2.totalSales ≤ a.2.totalSales))
    (fun a b => rfl)
    ((regionAccum txs).1.map (fun e =>
      (e.1, e.2.sales,
        (if 0 < (regionAccum txs).2 then
          e.2.sales / (regionAccum txs).2 * 100 else 0), e.2.count)))
  show pySort (fun a b => decide (b.2.totalSales ≤ a.2.totalSales))
      ((regionAccum txs).1.map (fun e =>
        (e.1, RegionStat.mk e.2.sales e.2.count
          (if 0 < (regionAccum txs).2 then
            pyRound2 (e.2.sales / (regionAccum txs).2 * 100) else 0))))
    = (pySort (fun a b => decide (b.2.1 ≤ a.2.1))
        ((regionAccum txs).1.map (fun e =>
          (e.1, e.2.sales,
            (if 0 < (regionAccum txs).2 then
              e.2.sales / (regionAccum txs).2 * 100 else 0), e.2.count)))).map
        rowToStat
  rw [← hsort, List.map_map]
  have hfun : (fun e : String × RegionAcc =>
        (e.1, RegionStat.mk e.2.sales e.2.count
          (if 0 < (regionAccum txs).2 then
            pyRound2 (e.2.sales / (regionAccum txs).2 * 100) else 0)))
      = (rowToStat ∘ (fun e : String × RegionAcc =>
          (e.1, e.2.sales,
            (if 0 < (regionAccum txs).2 then
              e.2.sales / (regionAccum txs).2 * 100 else 0), e.2.count))) := by
    funext e
    simp only [Function.comp_apply, rowToStat]
    rw [apply_ite pyRound2, pyRound2_zero]
  rw [hfun]

lemma c1_top (txs : List Transaction) (n : Nat) :
    _top_products txs n = top_selling_products txs n := by
  have hsort := pySort_map
    (fun e : String × ProductAcc => (e.1, e.2.qty, e.2.rev))
    (fun a b : String × ProductAcc => decide (b.2.qty ≤ a.2.qty))
    (fun a b : String × Int × ℚ => decide (b.2.1 ≤ a.2.1))
    (fun a b => rfl) (productStats txs)
  show (pySort (fun a b => decide (b.2.1 ≤ a.2.1))
      ((productStats txs).map (fun e => (e.1, e.2.qty, e.2.rev)))).take n
    = ((pySort (fun a b => decide (b.2.qty ≤ a.2.qty))
        (productStats txs)).take n).map (fun e => (e.1, e.2.qty, e.2.rev))
  rw [hsort, List.map_take]

/-- The per-date revenues common to find_peak_sales_day's daily_totals
and _daily_trend's accumulation (the date-keyed revenue projection of
the daily accumulator). -/
def dailyRevs (txs : List Transaction) : List (String × ℚ) :=
  (fpDailyTotals txs).map (Prod.map id DayAcc.revenue)

lemma trendDaily_proj (txs : List Transaction) :
    (trendDaily txs).map (Prod.map id TrendAcc.rev) = dailyRevs txs := by
  have h : ∀ (l : List Transaction) (a1 : List (String × TrendAcc))
      (a2 : List (String × DayAcc)),
      a1.map (Prod.map id TrendAcc.rev) = a2.map (Prod.map id DayAcc.revenue) →
      (l.foldl trendStep a1).map (Prod.map id TrendAcc.rev)
        = (l.foldl fpStep a2).map (Prod.map id DayAcc.revenue) := by
    intro l
    induction l with
    | nil => intro a1 a2 hacc; exact hacc
    | cons t ts ih =>
        intro a1 a2 hacc
        simp only [List.foldl_cons]
        refine ih _ _ ?_
        have h1 := updOrInsert_map TrendAcc.rev t.date
          (fun s => if t.customerID ≠ "" then
              ⟨s.rev + _tx_amount t, s.count + 1, insertNew t.customerID s.customers⟩
            else ⟨s.rev + _tx_amount t, s.count + 1, s.customers⟩)
          (fun r => r + (t.quantity : ℚ) * t.unitPrice) ⟨0, 0, []⟩
          (fun v => by
            by_cases hc : t.customerID ≠ "" <;> simp [hc, _tx_amount])
          a1
        have h2 := updOrInsert_map DayAcc.revenue t.date
          (fun s => ⟨s.revenue + (t.quantity : ℚ) * t.unitPrice, s.txCount⟩)
          (fun r => r + (t.quantity : ℚ) * t.unitPrice) ⟨0, 0⟩
          (fun v => rfl) a2
        show (updOrInsert t.date
            (fun s => if t.customerID ≠ "" then
                ⟨s.rev + _tx_amount t, s.count + 1, insertNew t.customerID s.customers⟩
              else ⟨s.rev + _tx_amount t, s.count + 1, s.customers⟩)
            (⟨0, 0, []⟩ : TrendAcc) a1).map (Prod.map id TrendAcc.rev)
          = (updOrInsert t.date
              (fun s => ⟨s.revenue + (t.quantity : ℚ) * t.unitPrice, s.txCount⟩)
              (⟨0, 0⟩ : DayAcc) a2).map (Prod.map id DayAcc.revenue)
        rw [h1, h2, hacc]
  exact h txs [] [] rfl

lemma daily_trend_length (txs : List Transaction) :
    (_daily_trend txs).length = (fpDailyTotals txs).length := by
  have h1 : (_daily_trend txs).length = (trendDaily txs).length := by
    simp only [_daily_trend]
    rw [(pySort_perm _ _).length_eq, List.length_map]
  have h2 : (trendDaily txs).length = (dailyRevs txs).length := by
    rw [← trendDaily_proj txs, List.length_map]
  have h3 : (dailyRevs txs).length = (fpDailyTotals txs).length := by
    rw [dailyRevs, List.length_map]
  omega

lemma trend_keys_perm (txs : List Transaction) :
    ((_daily_trend txs).map (fun r => r.2.1)).Perm
      ((fpDailyTotals txs).map (fun e => e.2.revenue)) := by
  have hdef : _daily_trend txs
      = pySort (fun a b => pyStrLe a.1 b.1)
          ((trendDaily txs).map (fun e =>
            (e.1, e.2.rev, e.2.count, e.2.customers.length))) := by
    simp only [_daily_trend]
  have hp := (pySort_perm (fun a b => pyStrLe a.1 b.1)
    ((trendDaily txs).map (fun e =>
      (e.1, e.2.rev, e.2.count, e.2.customers.length)))).map
    (fun r : String × ℚ × Nat × Nat => r.2.1)
  have heq1 : (((trendDaily txs).map (fun e =>
      (e.1, e.2.rev, e.2.count, e.2.customers.length))).map
        (fun r : String × ℚ × Nat × Nat => r.2.1))
      = (trendDaily txs).map (fun e => e.2.rev) := by
    rw [List.map_map]; rfl
  have heq2 : (trendDaily txs).map (fun e : String × TrendAcc => e.2.rev)
      = (fpDailyTotals txs).map (fun e : String × DayAcc => e.2.revenue) := by
    have hA : (trendDaily txs).map (fun e : String × TrendAcc => e.2.rev)
        = ((trendDaily txs).map (Prod.map id TrendAcc.rev)).map Prod.snd := by
      rw [List.map_map]; rfl
    have hB : (fpDailyTotals txs).map (fun e : String × DayAcc => e.2.revenue)
        = ((fpDailyTotals txs).map (Prod.map id DayAcc.revenue)).map Prod.snd := by
      rw [List.map_map]; rfl
    rw [hA, hB, trendDaily_proj txs, dailyRevs]
  rw [hdef]
  rw [heq1, heq2] at hp
  exact hp

lemma c1_peak_rev (txs : List Transaction) :
    (find_peak_sales_day txs).2.1 = (_peak_day txs).2.1 := by
  rcases hfp : fpDailyTotals txs with _ | ⟨x, xs⟩
  · have htd : trendDaily txs = [] := by
      have h := trendDaily_proj txs
      rw [dailyRevs, hfp] at h
      simpa using h
    have hdt : _daily_trend txs = [] := by
      simp [_daily_trend, htd, pySort]
    simp [find_peak_sales_day, _peak_day, hfp, hdt]
  · rcases hdt : _daily_trend txs with _ | ⟨z, zs⟩
    · exfalso
      have h := daily_trend_length txs
      rw [hfp, hdt] at h
      simp at h
    · simp only [find_peak_sales_day, _peak_day, hfp, hdt]
      have hperm : ((x :: xs).map (fun e : String × DayAcc => e.2.revenue)).Perm
          ((z :: zs).map (fun r : String × ℚ × Nat × Nat => r.2.1)) := by
        rw [← hfp, ← hdt]
        exact (trend_keys_perm txs).symm
      exact greatest_key_eq (fun e : String × DayAcc => e.2.revenue)
        (fun r : String × ℚ × Nat × Nat => r.2.1)
        (pyMaxBy_mem _ x xs) (pyMaxBy_le _ x xs)
        (pyMaxBy_mem _ z zs) (pyMaxBy_le _ z zs) hperm

lemma c1_peak_date (txs : List Transaction)
    (hU : (dailyRevs txs).countP
      (fun pr => decide (pr.2 = (find_peak_sales_day txs).2.1)) = 1) :
    (find_peak_sales_day txs).1 = (_peak_day txs).1 := by
  rcases hfp : fpDailyTotals txs with _ | ⟨x, xs⟩
  · exfalso
    rw [dailyRevs, hfp] at hU
    simp at hU
  · rcases hdt : _daily_trend txs with _ | ⟨z, zs⟩
    · exfalso
      have h := daily_trend_length txs
      rw [hfp, hdt] at h
      simp at h
    · have hrev := c1_peak_rev txs
      simp only [find_peak_sales_day, _peak_day, hfp, hdt] at hrev ⊢
      have hmemA : pyMaxBy (fun e => e.2.revenue) x xs ∈ x :: xs :=
        pyMaxBy_mem _ x xs
      have pa : Prod.map id DayAcc.revenue (pyMaxBy (fun e => e.2.revenue) x xs)
          ∈ dailyRevs txs := by
        rw [dailyRevs, hfp]
        exact List.mem_map_of_mem _ hmemA
      have hb0 : pyMaxBy (fun r => r.2.1) z zs ∈ _daily_trend txs := by
        rw [hdt]
        exact pyMaxBy_mem _ z zs
      have hdef : _daily_trend txs
          = pySort (fun a b => pyStrLe a.1 b.1)
              ((trendDaily txs).map (fun e =>
                (e.1, e.2.rev, e.2.count, e.2.customers.length))) := by
        simp only [_daily_trend]
      rw [hdef] at hb0
      have hb1 := (pySort_perm _ _).mem_iff.mp hb0
      obtain ⟨e, he, heq⟩ := List.mem_map.mp hb1
      have pb : ((e.1, e.2.rev) : String × ℚ) ∈ dailyRevs txs := by
        rw [← trendDaily_proj txs]
        exact List.mem_map_of_mem _ he
      have hpa : (Prod.map id DayAcc.revenue
          (pyMaxBy (fun e => e.2.revenue) x xs)).2
          = (find_peak_sales_day txs).2.1 := by
        simp only [find_peak_sales_day, hfp]
        rfl
      have hpb : ((e.1, e.2.rev) : String × ℚ).2
          = (find_peak_sales_day txs).2.1 := by
        have h1 : e.2.rev = (pyMaxBy (fun r => r.2.1) z zs).2.1 :=
          congrArg (fun r : String × ℚ × Nat × Nat => r.2.1) heq
        simp only [find_peak_sales_day, hfp]
        exact h1.trans hrev.symm
      have huniq := countP_one_unique _ hU pa pb
        (decide_eq_true hpa) (decide_eq_true hpb)
      have hAe : (pyMaxBy (fun e => e.2.revenue) x xs).1 = e.1 :=
        congrArg Prod.fst huniq
      have heB : e.1 = (pyMaxBy (fun r => r.2.1) z zs).1 :=
        congrArg Prod.fst heq
      rw [hAe, heB]

/-- C1 (amended): for every validated transaction list, the renderer's
recomputed aggregates agree with the Aggregator's up to the documented
deviations: the region rows of _region_table match region_wise_sales
entry-for-entry in order, region, total sales and count, with
region_wise_sales' percentage equal to the 2-decimal rounding of the
row's unrounded percentage; _region_table's grand total is the total
revenue; _top_products' triples equal top_selling_products' exactly;
the two peak-day computations always agree on the peak revenue, and on
the peak date whenever a single date attains the maximal revenue, but
their transaction counts differ: find_peak_sales_day's is always 0
(no-op increment) while _peak_day recomputes it. -/
theorem claim_C1 (txs : List Transaction) (n : Nat) :
    region_wise_sales txs = ((_region_table txs).1).map rowToStat
    ∧ (_region_table txs).2 = calculate_total_revenue txs
    ∧ _top_products txs n = top_selling_products txs n
    ∧ (find_peak_sales_day txs).2.1 = (_peak_day txs).2.1
    ∧ (find_peak_sales_day txs).2.2 = 0
    ∧ ((dailyRevs txs).countP
        (fun pr => decide (pr.2 = (find_peak_sales_day txs).2.1)) = 1 →
      (find_peak_sales_day txs).1 = (_peak_day txs).1) :=
  ⟨c1_region txs, regionAccum_total txs, c1_top txs n, c1_peak_rev txs,
   find_peak_count_zero txs, c1_peak_date txs⟩

/-- A single valid transaction, on which the two peak-day triples differ
in their transaction counts. -/
def cexT : Transaction :=
  ⟨"T100", "2024-12-01", "P1", "Widget", 1, 10, "C001", "North"⟩

/-- Three equal-amount transactions in three regions, on which the
unrounded row percentages of _region_table differ from the rounded
percentages of region_wise_sales. -/
def cexRegions : List Transaction :=
  [⟨"T101", "2024-12-01", "P1", "A", 1, 1, "C001", "North"⟩,
   ⟨"T102", "2024-12-01", "P2", "B", 1, 1, "C002", "South"⟩,
   ⟨"T103", "2024-12-01", "P3", "C", 1, 1, "C003", "East"⟩]

/-- C1 as stated is false: on a single transaction find_peak_sales_day
reports transaction count 0 where _peak_day reports 1, and with three
equal regions _region_table's percentages are 100/3 where
region_wise_sales' are the rounded 33.33. -/
theorem claim_C1_counterexample :
    find_peak_sales_day [cexT] ≠ _peak_day [cexT]
    ∧ ((_region_table cexRegions).1.map (fun r => r.2.2.1)
        ≠ (region_wise_sales cexRegions).map (fun e => e.2.percentage)) := by
  constructor
  · have h1 : find_peak_sales_day [cexT] = (some "2024-12-01", 10, 0) := by
      norm_num +decide [find_peak_sales_day, fpDailyTotals, fpStep,
        updOrInsert, pyMaxBy, cexT]
    have h2 : _peak_day [cexT] = (some "2024-12-01", 10, 1) := by
      norm_num +decide [_peak_day, _daily_trend, trendDaily, trendStep,
        updOrInsert, pyMaxBy, _tx_amount, insertNew, pySort, insertSorted,
        cexT]
    rw [h1, h2]
    simp
  · have h3 : (_region_table cexRegions).1.map (fun r => r.2.2.1)
        = [100 / 3, 100 / 3, 100 / 3] := by
      norm_num +decide [_region_table, regionAccum, regionStep, updOrInsert,
        pySort, insertSorted, cexRegions]
    have h4 : (region_wise_sales cexRegions).map (fun e => e.2.percentage)
        = [3333 / 100, 3333 / 100, 3333 / 100] := by
      norm_num +decide [region_wise_sales, regionAccum, regionStep,
        updOrInsert, pySort, insertSorted, pyRound2, cexRegions]
    rw [h3, h4]
    norm_num

theorem claim_C1_witness :
    (dailyRevs [cexT]).countP
        (fun pr => decide (pr.2 = (find_peak_sales_day [cexT]).2.1)) = 1
    ∧ (find_peak_sales_day [cexT]).1 = (_peak_day [cexT]).1 := by
  have hU : (dailyRevs [cexT]).countP
      (fun pr => decide (pr.2 = (find_peak_sales_day [cexT]).2.1)) = 1 := by
    norm_num +decide [dailyRevs, fpDailyTotals, fpStep, updOrInsert,
      find_peak_sales_day, pyMaxBy, cexT, List.countP_cons, List.countP_nil]
  exact ⟨hU, (claim_C1 [cexT] 5).2.2.2.2.2 hU⟩

theorem claim_C6_witness :
    pyParseInt (stripKey "P207") = some 207
    ∧ _extract_numeric_product_id (some "P207") = some 7 := by
  have hp : pyParseInt (stripKey "P207") = some 207 := by decide
  have h := claim_C6.2.2.2.2.1 "P207" 207 hp (by decide)
  have h2 : ((207 : Int) - 1) % 100 + 1 = 7 := by decide
  rw [h2] at h
  exact ⟨hp, h⟩

/-- Two transactions with one product group above and one below the
threshold-10 boundary. -/
def wt8 : List Transaction :=
  [⟨"T201", "2024-12-01", "P1", "Alpha", 12, 5, "C001", "North"⟩,
   ⟨"T202", "2024-12-01", "P2", "Beta", 2, 7, "C002", "South"⟩]

theorem claim_C8_witness :
    ("Beta", (2 : Int), (14 : ℚ)) ∈ low_performing_products wt8 10
    ∧ ("Alpha", (12 : Int), (60 : ℚ)) ∈ top_selling_products wt8 5 := by
  have hn : (productStats wt8).length ≤ 5 := by
    norm_num +decide [productStats, productStep, updOrInsert, wt8]
  have h := claim_C8 wt8 5 hn
  constructor
  · refine (h.2.2 _).mpr ⟨?_, by norm_num⟩
    norm_num +decide [groupTriples, productStats, productStep, updOrInsert, wt8]
  · refine h.1 _ ?_
    norm_num +decide [groupTriples, productStats, productStep, updOrInsert, wt8]

theorem claim_C9_witness :
    (0 : ℚ) < calculate_total_revenue [cexT]
    ∧ |((region_wise_sales [cexT]).map (fun e => e.2.percentage)).sum - 100|
        ≤ (region_wise_sales [cexT]).length * (1 / 200) := by
  have hpos : (0 : ℚ) < calculate_total_revenue [cexT] := by
    norm_num [calculate_total_revenue, cexT]
  exact ⟨hpos, (claim_C9 [cexT]).2 hpos⟩

theorem claim_C10_witness :
    cexT ∈ [cexT] ∧ 0 < cexT.quantity ∧ 0 < cexT.unitPrice := by
  have hmem : cexT ∈ (validate_and_filter [cexT] none none none).1 := by
    norm_num +decide [validate_and_filter, stageA, stageAStep, validateRecord,
      pyStrip, stripData, pyWhitespace, pyStartsWith, cexT]
  exact (claim_C10 [cexT] none none none).1 cexT hmem

end SalesAnalytics
